import Mathlib

/-!
Shallow embedding of the event-window performance simulation engine of
`backend/main.py` (functions `simulate_portfolio_event`,
`calculate_scenario_performance`, `calculate_performance_metrics`, and the
best-scenario selection of `generate_investment_advice`).

Modelling conventions:
* Python floats are modelled as exact rationals (`ℚ`); the source's decimal
  literals 0.8, 1.2, 100 are carried over verbatim.
* Calendar dates: the source keeps dates as ISO `"YYYY-MM-DD"` strings (always
  produced by `strftime`), compares them with `>=` (lexicographic, which on
  valid ISO dates coincides with chronological order) and, inside the metrics
  function, parses them with `strptime` and subtracts (`.days`).  A valid ISO
  date string is modelled by its proleptic-Gregorian day ordinal (`ℤ`): the
  string order is the ordinal order and `(d2 - d1).days` is ordinal
  subtraction.
* Python `dict` values iterate in insertion order; `event_data` is modelled as
  an association list.  `next((d for d in xs if d["date"] == date), None)` is
  `List.find?`.
* Python exceptions are modelled with `Except`: float division by zero raises
  `ZeroDivisionError` in the source, hence the explicit zero tests producing
  `Except.error` exactly where the source would raise.
* Truthiness: `middle_date` is either `None` or a non-empty date string, so the
  source's `if ... and middle_date and ...` test is `Option.isSome`, i.e. the
  `Option.any` pattern below.  A pydantic `Portfolio` object is always truthy,
  so `if portfolio and ...` is matching on the `Option Portfolio` argument.
* The HTTP layer, the price fetching and the OpenAI call are external
  collaborators; `simulate_portfolio_event` is modelled from the point where
  `event_data` has been assembled (line 404 of the source), and of
  `generate_investment_advice` only the pure best-scenario selection
  (`max(scenarios.items(), key=...)`, line 571) is modelled.
-/

/-- One point of an asset's fetched history: the dicts
`{"date": ..., "close": ..., "allocation": ...}` built in
`simulate_portfolio_event`. -/
structure PricePoint where
  date : ℤ
  close : ℚ
  allocation : ℚ
deriving DecidableEq, Repr

/-- `event_data`: mapping from asset symbol to its price series, in dict
insertion order. -/
abbrev EventData := List (String × List PricePoint)

/-- The slice of the pydantic `Portfolio` model that the simulation reads. -/
structure Portfolio where
  investment_amount : Option ℚ
deriving DecidableEq, Repr

/-- One entry `{"date": ..., "value": ...}` of a scenario's performance
series. -/
structure PerfPoint where
  date : ℤ
  value : ℚ
deriving DecidableEq, Repr

/-- Result dict of `calculate_performance_metrics`. -/
structure Metrics where
  total_return : ℚ
  max_drawdown : ℚ
  recovery_days : Option ℤ
deriving DecidableEq, Repr

/-- The arithmetic fault a Python float division by zero raises. -/
inductive PyError where
  | zeroDivision
deriving DecidableEq, Repr

/-- Adjustment factor of `calculate_scenario_performance` (lines 491-496):
1.0 by default, 0.8 for `"withdraw"` and 1.2 for `"add"` once `middle_date`
is present and `date >= middle_date`. -/
def adjustment_factor (scenario : String) (middle_date : Option ℤ) (d : ℤ) : ℚ :=
  if scenario == "withdraw" && middle_date.any (fun m => decide (m ≤ d)) then 0.8
  else if scenario == "add" && middle_date.any (fun m => decide (m ≤ d)) then 1.2
  else 1

/-- Unadjusted portfolio value at one date (lines 498-501): sum of
`close * allocation / 100` over the assets having a point at that exact date
(missing dates contribute nothing). -/
def raw_value (event_data : EventData) (d : ℤ) : ℚ :=
  event_data.foldl (fun acc kv =>
    match kv.2.find? (fun p => p.date == d) with
    | some p => acc + p.close * (p.allocation / 100)
    | none => acc) 0

/-- Investment-amount scaling (lines 505-506): applied only when a portfolio
with a configured amount is present and the value is positive. -/
def apply_investment (portfolio : Option Portfolio) (v : ℚ) : ℚ :=
  match portfolio with
  | some pf =>
    match pf.investment_amount with
    | some amt => if 0 < v then v * amt else v
    | none => v
  | none => v

/-- Allocation-weighted portfolio value at one date (lines 490-506): the raw
value times the adjustment factor, then scaled by `investment_amount`. -/
def point_value (event_data : EventData) (scenario : String) (middle_date : Option ℤ)
    (portfolio : Option Portfolio) (d : ℤ) : ℚ :=
  apply_investment portfolio (raw_value event_data d * adjustment_factor scenario middle_date d)

/-- `calculate_scenario_performance` (lines 476-513): one `PerfPoint` per
axis date, in axis order. -/
def calculate_scenario_performance (event_data : EventData) (dates : List ℤ)
    (scenario : String) (middle_date : Option ℤ) (portfolio : Option Portfolio) :
    List PerfPoint :=
  dates.map (fun d => ⟨d, point_value event_data scenario middle_date portfolio d⟩)

/-- Indexing `performance_data[i]` (always in bounds in the source). -/
def nthPoint (pd : List PerfPoint) (i : Nat) : PerfPoint :=
  pd.getD i ⟨0, 0⟩

/-- Value at index `i`. -/
def vAt (pd : List PerfPoint) (i : Nat) : ℚ :=
  (nthPoint pd i).value

/-- Date at index `i`. -/
def dAt (pd : List PerfPoint) (i : Nat) : ℤ :=
  (nthPoint pd i).date

/-- `performance_data[0]["value"]` (line 526). -/
def firstValue (pd : List PerfPoint) : ℚ :=
  vAt pd 0

/-- `performance_data[-1]["value"]` (line 527). -/
def lastValue (pd : List PerfPoint) : ℚ :=
  vAt pd (pd.length - 1)

/-- `total_return = ((final_value - initial_value) / initial_value) * 100`
(line 529). -/
def totalReturnOf (pd : List PerfPoint) : ℚ :=
  (lastValue pd - firstValue pd) / firstValue pd * 100

/-- The running-peak drawdown loop (lines 534-539).  A zero peak makes the
source's float division raise, hence the error case. -/
def drawdownLoop (peak md : ℚ) : List PerfPoint → Except PyError ℚ
  | [] => .ok md
  | p :: rest =>
    let peak' := if p.value > peak then p.value else peak
    if peak' = 0 then .error .zeroDivision
    else drawdownLoop peak' (max md ((peak' - p.value) / peak' * 100)) rest

/-- One step of `min(range(len(pd)), key=lambda i: pd[i]["value"])`: Python's
`min` keeps the earlier element on ties. -/
def lowestStep (pd : List PerfPoint) (best i : Nat) : Nat :=
  if vAt pd i < vAt pd best then i else best

/-- `lowest_point_idx` (line 541): index of the global minimum value, first
occurrence on ties. -/
def lowestIdx (pd : List PerfPoint) : Nat :=
  (List.range pd.length).foldl (lowestStep pd) 0

/-- The recovery scan (lines 542-552): if the minimum is not last, the first
later point with value `>= initial_value` yields `recovery_days` as the date
difference to the trough. -/
def recoveryOf (pd : List PerfPoint) : Option ℤ :=
  let k := lowestIdx pd
  if k < pd.length - 1 then
    match (pd.drop (k + 1)).find? (fun p => decide (firstValue pd ≤ p.value)) with
    | some p => some (p.date - dAt pd k)
    | none => none
  else none

/-- `calculate_performance_metrics` (lines 515-558).  Short series return the
zero defaults; a zero starting value makes the `total_return` division raise
(line 529) before anything else is computed; a zero running peak makes the
drawdown division raise. -/
def calculate_performance_metrics (pd : List PerfPoint) : Except PyError Metrics :=
  if pd.length < 2 then .ok ⟨0, 0, none⟩
  else if firstValue pd = 0 then .error .zeroDivision
  else
    match drawdownLoop (firstValue pd) 0 pd with
    | .error e => .error e
    | .ok md => .ok ⟨totalReturnOf pd, md, recoveryOf pd⟩

/-- Dates of every point of every asset, in iteration order
(lines 404-407). -/
def collectDates : EventData → List ℤ
  | [] => []
  | kv :: rest => kv.2.map (fun p => p.date) ++ collectDates rest

/-- Insertion into a strictly sorted duplicate-free list. -/
def insertDate (d : ℤ) : List ℤ → List ℤ
  | [] => [d]
  | x :: xs =>
    if d < x then d :: x :: xs
    else if d = x then x :: xs
    else x :: insertDate d xs

/-- `sorted(list(set(...)))`: the set of elements as a strictly ascending
list. -/
def sortDedup (l : List ℤ) : List ℤ :=
  l.foldr insertDate []

/-- The aligned date axis (line 409): sorted deduplicated union of all asset
dates. -/
def alignDates (event_data : EventData) : List ℤ :=
  sortDedup (collectDates event_data)

/-- Indexing `dates[i]` (always in bounds in the source). -/
def nthDate (dates : List ℤ) (i : Nat) : ℤ :=
  dates.getD i 0

/-- Per-scenario entry of `simulation_results` (lines 420-446). -/
structure ScenarioResult where
  scenario : String
  performance : List PerfPoint
  total_return : ℚ
  max_drawdown : ℚ
  recovery_days : Option ℤ
deriving DecidableEq, Repr

/-- Failures of the simulation endpoint: the explicit "Insufficient market
data" HTTP 400 (line 411), or an uncaught metrics fault. -/
inductive SimError where
  | insufficientData
  | metricsFault (e : PyError)
deriving DecidableEq, Repr

/-- What the simulation returns (of the response dict: the middle date, the
scenario results, and the advice's best-scenario name). -/
structure SimOutput where
  middle_date : ℤ
  simulation_results : List ScenarioResult
  best_scenario : String
deriving DecidableEq, Repr

/-- Pure part of `generate_investment_advice` (line 571):
`max(scenarios.items(), key=lambda x: x[1]["total_return"])[0]` — the first
scenario with maximal total return, in insertion order. -/
def best_scenario (results : List ScenarioResult) : String :=
  match results with
  | [] => ""
  | r :: rest =>
    (rest.foldl (fun best x => if best.total_return < x.total_return then x else best) r).scenario

/-- `simulate_portfolio_event` (lines 404-474) from the point where
`event_data` has been assembled: build the axis, fail when it is empty, pick
the middle date, evaluate the three scenarios in order, and select the best
scenario. -/
def simulate_portfolio_event (event_data : EventData) (portfolio : Portfolio) :
    Except SimError SimOutput :=
  let dates := alignDates event_data
  if dates.length = 0 then .error .insufficientData
  else
    let middle_date := nthDate dates (dates.length / 2)
    let ncp := calculate_scenario_performance event_data dates "no_change" none (some portfolio)
    match calculate_performance_metrics ncp with
    | .error e => .error (.metricsFault e)
    | .ok ncm =>
      let wp := calculate_scenario_performance event_data dates "withdraw" (some middle_date) (some portfolio)
      match calculate_performance_metrics wp with
      | .error e => .error (.metricsFault e)
      | .ok wm =>
        let ap := calculate_scenario_performance event_data dates "add" (some middle_date) (some portfolio)
        match calculate_performance_metrics ap with
        | .error e => .error (.metricsFault e)
        | .ok am =>
          let results : List ScenarioResult :=
            [⟨"No Changes", ncp, ncm.total_return, ncm.max_drawdown, ncm.recovery_days⟩,
             ⟨"20% Withdrawal", wp, wm.total_return, wm.max_drawdown, wm.recovery_days⟩,
             ⟨"20% Addition", ap, am.total_return, am.max_drawdown, am.recovery_days⟩]
          .ok ⟨middle_date, results, best_scenario results⟩

/-- Spec-side predicate: the value series never decreases between consecutive
points ("the series is non-decreasing"). -/
def ValuesNonDecreasing (pd : List PerfPoint) : Prop :=
  List.Chain' (fun a b => a.value ≤ b.value) pd

instance (pd : List PerfPoint) : Decidable (ValuesNonDecreasing pd) :=
  inferInstanceAs (Decidable (List.Chain' (fun a b : PerfPoint => a.value ≤ b.value) pd))

/-- Spec-side characterisation of the recovery computation, in the words of
claim C3: `k` is the index of the global minimum (first occurrence on ties);
if it is the last index the result is absent; otherwise the first later index
whose value reaches the series' first value marks recovery and the result is
the date difference to the trough; absent when no such index exists. -/
def RecoverySpec (pd : List PerfPoint) (rd : Option ℤ) : Prop :=
  ∃ k, k < pd.length ∧
    (∀ j, j < pd.length → vAt pd k ≤ vAt pd j) ∧
    (∀ j, j < k → vAt pd k < vAt pd j) ∧
    ((k = pd.length - 1 ∧ rd = none) ∨
     (k < pd.length - 1 ∧
       ((∃ j, k < j ∧ j < pd.length ∧ vAt pd 0 ≤ vAt pd j ∧
           (∀ i, k < i → i < j → vAt pd i < vAt pd 0) ∧
           rd = some (dAt pd j - dAt pd k)) ∨
        ((∀ j, k < j → j < pd.length → vAt pd j < vAt pd 0) ∧ rd = none))))

/-! ## Scenario valuator lemmas -/

lemma apply_investment_smul (portfolio : Option Portfolio) (c v : ℚ) (hc : 0 < c) :
    apply_investment portfolio (c * v) = c * apply_investment portfolio v := by
  match portfolio with
  | none => rfl
  | some pf =>
    match h : pf.investment_amount with
    | none => simp [apply_investment, h]
    | some amt =>
      simp only [apply_investment, h]
      rcases lt_trichotomy v 0 with hv | hv | hv
      · rw [if_neg (by nlinarith), if_neg (by nlinarith)]
      · subst hv
        simp
      · rw [if_pos (by nlinarith), if_pos hv]
        ring

lemma adjustment_factor_no_change (middle_date : Option ℤ) (d : ℤ) :
    adjustment_factor "no_change" middle_date d = 1 := by
  simp [adjustment_factor]

lemma adjustment_factor_none (scenario : String) (d : ℤ) :
    adjustment_factor scenario none d = 1 := by
  simp [adjustment_factor]

lemma adjustment_factor_withdraw_ge (m d : ℤ) (h : m ≤ d) :
    adjustment_factor "withdraw" (some m) d = 0.8 := by
  simp [adjustment_factor, h]

lemma adjustment_factor_withdraw_lt (m d : ℤ) (h : d < m) :
    adjustment_factor "withdraw" (some m) d = 1 := by
  simp [adjustment_factor, not_le.mpr h]

lemma adjustment_factor_add_ge (m d : ℤ) (h : m ≤ d) :
    adjustment_factor "add" (some m) d = 1.2 := by
  simp [adjustment_factor, h]

lemma adjustment_factor_add_lt (m d : ℤ) (h : d < m) :
    adjustment_factor "add" (some m) d = 1 := by
  simp [adjustment_factor, not_le.mpr h]

lemma withdraw_series_map (ed : EventData) (dates : List ℤ) (port : Option Portfolio) (m : ℤ) :
    calculate_scenario_performance ed dates "withdraw" (some m) port =
      (calculate_scenario_performance ed dates "no_change" none port).map
        (fun pt => if m ≤ pt.date then ⟨pt.date, 0.8 * pt.value⟩ else pt) := by
  unfold calculate_scenario_performance
  rw [List.map_map]
  apply List.map_congr_left
  intro d _
  by_cases hd : m ≤ d
  · simp only [Function.comp_apply, hd, if_pos]
    rw [PerfPoint.mk.injEq]
    refine ⟨rfl, ?_⟩
    rw [point_value, point_value, adjustment_factor_withdraw_ge m d hd,
      adjustment_factor_no_change, mul_one, mul_comm,
      apply_investment_smul port (0.8 : ℚ) _ (by norm_num)]
  · simp only [Function.comp_apply, hd, if_neg, not_false_iff]
    rw [point_value, point_value, adjustment_factor_withdraw_lt m d (not_le.mp hd),
      adjustment_factor_no_change]

lemma add_series_map (ed : EventData) (dates : List ℤ) (port : Option Portfolio) (m : ℤ) :
    calculate_scenario_performance ed dates "add" (some m) port =
      (calculate_scenario_performance ed dates "no_change" none port).map
        (fun pt => if m ≤ pt.date then ⟨pt.date, 1.2 * pt.value⟩ else pt) := by
  unfold calculate_scenario_performance
  rw [List.map_map]
  apply List.map_congr_left
  intro d _
  by_cases hd : m ≤ d
  · simp only [Function.comp_apply, hd, if_pos]
    rw [PerfPoint.mk.injEq]
    refine ⟨rfl, ?_⟩
    rw [point_value, point_value, adjustment_factor_add_ge m d hd,
      adjustment_factor_no_change, mul_one, mul_comm,
      apply_investment_smul port (1.2 : ℚ) _ (by norm_num)]
  · simp only [Function.comp_apply, hd, if_neg, not_false_iff]
    rw [point_value, point_value, adjustment_factor_add_lt m d (not_le.mp hd),
      adjustment_factor_no_change]

/-- C2 -- For every event_data mapping, every non-empty sorted date axis, and
every pivot date chosen from the axis, the withdraw series equals the
no-change series with every value at a date at or after the pivot multiplied
by exactly 0.8 (earlier entries unchanged), and the add series likewise with
factor 1.2, with or without a configured investment amount. -/
theorem C2_scenario_factor_relation (ed : EventData) (dates : List ℤ)
    (port : Option Portfolio) (m : ℤ) (_hne : dates ≠ [])
    (_hsorted : dates.Sorted (· < ·)) (_hm : m ∈ dates) :
    calculate_scenario_performance ed dates "withdraw" (some m) port =
      (calculate_scenario_performance ed dates "no_change" none port).map
        (fun pt => if m ≤ pt.date then ⟨pt.date, 0.8 * pt.value⟩ else pt) ∧
    calculate_scenario_performance ed dates "add" (some m) port =
      (calculate_scenario_performance ed dates "no_change" none port).map
        (fun pt => if m ≤ pt.date then ⟨pt.date, 1.2 * pt.value⟩ else pt) :=
  ⟨withdraw_series_map ed dates port m, add_series_map ed dates port m⟩

/-- C2 witness: a concrete two-asset event window with an investment amount. -/
theorem C2_scenario_factor_relation_witness :
    calculate_scenario_performance [("A", [⟨0, 10, 100⟩, ⟨1, 12, 100⟩, ⟨2, 9, 100⟩])]
        [0, 1, 2] "withdraw" (some 1) (some ⟨some 1000⟩) =
      (calculate_scenario_performance [("A", [⟨0, 10, 100⟩, ⟨1, 12, 100⟩, ⟨2, 9, 100⟩])]
          [0, 1, 2] "no_change" none (some ⟨some 1000⟩)).map
        (fun pt => if 1 ≤ pt.date then ⟨pt.date, 0.8 * pt.value⟩ else pt) ∧
    calculate_scenario_performance [("A", [⟨0, 10, 100⟩, ⟨1, 12, 100⟩, ⟨2, 9, 100⟩])]
        [0, 1, 2] "add" (some 1) (some ⟨some 1000⟩) =
      (calculate_scenario_performance [("A", [⟨0, 10, 100⟩, ⟨1, 12, 100⟩, ⟨2, 9, 100⟩])]
          [0, 1, 2] "no_change" none (some ⟨some 1000⟩)).map
        (fun pt => if 1 ≤ pt.date then ⟨pt.date, 1.2 * pt.value⟩ else pt) :=
  C2_scenario_factor_relation [("A", [⟨0, 10, 100⟩, ⟨1, 12, 100⟩, ⟨2, 9, 100⟩])]
    [0, 1, 2] (some ⟨some 1000⟩) 1 (by decide)
    (by decide) (by decide)

/-- C9 -- Calling the scenario valuator for withdraw or add with no pivot
date yields exactly the no-change series: with `middle_date = None` the
adjustment factor stays 1.0 at every date. -/
theorem C9_no_pivot_means_no_adjustment (ed : EventData) (dates : List ℤ)
    (port : Option Portfolio) :
    calculate_scenario_performance ed dates "withdraw" none port =
      calculate_scenario_performance ed dates "no_change" none port ∧
    calculate_scenario_performance ed dates "add" none port =
      calculate_scenario_performance ed dates "no_change" none port := by
  constructor <;>
  · unfold calculate_scenario_performance
    apply List.map_congr_left
    intro d _
    rw [PerfPoint.mk.injEq]
    exact ⟨rfl, by rw [point_value, point_value, adjustment_factor_none,
      adjustment_factor_no_change]⟩

/-! ## Metrics calculator lemmas -/

lemma nthPoint_mem (pd : List PerfPoint) (i : Nat) (h : i < pd.length) :
    nthPoint pd i ∈ pd := by
  unfold nthPoint
  rw [List.getD_eq_getElem?_getD, List.getElem?_eq_getElem h, Option.getD_some]
  exact List.getElem_mem h

lemma drawdownLoop_cons_ne (peak md : ℚ) (p : PerfPoint) (rest : List PerfPoint)
    (h : (if p.value > peak then p.value else peak) ≠ 0) :
    drawdownLoop peak md (p :: rest) =
      drawdownLoop (if p.value > peak then p.value else peak)
        (max md (((if p.value > peak then p.value else peak) - p.value) /
          (if p.value > peak then p.value else peak) * 100)) rest := by
  simp only [drawdownLoop]
  rw [if_neg h]

lemma drawdownLoop_cons_zero (peak md : ℚ) (p : PerfPoint) (rest : List PerfPoint)
    (h : (if p.value > peak then p.value else peak) = 0) :
    drawdownLoop peak md (p :: rest) = .error .zeroDivision := by
  simp only [drawdownLoop]
  rw [if_pos h]

lemma drawdownLoop_le (l : List PerfPoint) :
    ∀ peak md md', drawdownLoop peak md l = .ok md' → md ≤ md' := by
  induction l with
  | nil =>
    intro peak md md' h
    simp only [drawdownLoop] at h
    exact le_of_eq (Except.ok.inj h)
  | cons p rest ih =>
    intro peak md md' h
    by_cases hz : (if p.value > peak then p.value else peak) = 0
    · rw [drawdownLoop_cons_zero peak md p rest hz] at h
      exact absurd h (by simp)
    · rw [drawdownLoop_cons_ne peak md p rest hz] at h
      exact le_trans (le_max_left _ _) (ih _ _ _ h)

lemma drawdownLoop_pos (l : List PerfPoint) :
    ∀ peak md, 0 < peak → 0 ≤ md →
      ∃ md', drawdownLoop peak md l = .ok md' ∧ 0 ≤ md' ∧
        (md' = 0 ↔ (md = 0 ∧ List.Chain (fun a b => a ≤ b) peak (l.map PerfPoint.value))) := by
  induction l with
  | nil =>
    intro peak md _ hmd
    exact ⟨md, rfl, hmd, by simp⟩
  | cons p rest ih =>
    intro peak md hpeak hmd
    have hpeak'pos : 0 < (if p.value > peak then p.value else peak) := by
      split
      · exact lt_trans hpeak (by assumption)
      · exact hpeak
    have hge : p.value ≤ (if p.value > peak then p.value else peak) := by
      split
      · exact le_refl _
      · exact le_of_not_lt (by assumption)
    have hdd : 0 ≤ ((if p.value > peak then p.value else peak) - p.value) /
        (if p.value > peak then p.value else peak) * 100 := by
      apply mul_nonneg _ (by norm_num)
      exact div_nonneg (by linarith) (le_of_lt hpeak'pos)
    obtain ⟨md', hrun, hmd', hiff⟩ :=
      ih (if p.value > peak then p.value else peak)
        (max md (((if p.value > peak then p.value else peak) - p.value) /
          (if p.value > peak then p.value else peak) * 100))
        hpeak'pos (le_trans hmd (le_max_left _ _))
    refine ⟨md', ?_, hmd', ?_⟩
    · rw [drawdownLoop_cons_ne peak md p rest (ne_of_gt hpeak'pos)]
      exact hrun
    · rw [hiff, List.map_cons, List.chain_cons]
      by_cases hc : peak ≤ p.value
      · have hpk : (if p.value > peak then p.value else peak) = p.value := by
          split
          · rfl
          · exact le_antisymm hc (le_of_not_lt (by assumption))
        rw [hpk, sub_self, zero_div, zero_mul, max_eq_left hmd]
        constructor
        · rintro ⟨h1, h2⟩
          exact ⟨h1, hc, h2⟩
        · rintro ⟨h1, _, h3⟩
          exact ⟨h1, h3⟩
      · have hlt : p.value < peak := lt_of_not_le hc
        have hpk : (if p.value > peak then p.value else peak) = peak := by
          rw [if_neg (not_lt.mpr (le_of_lt hlt))]
        rw [hpk] at hrun hiff ⊢
        have hddpos : 0 < (peak - p.value) / peak * 100 := by
          apply mul_pos _ (by norm_num)
          exact div_pos (by linarith) hpeak
        constructor
        · rintro ⟨h1, _⟩
          exact absurd h1 (ne_of_gt (lt_of_lt_of_le hddpos (le_max_right _ _)))
        · rintro ⟨_, h2, _⟩
          exact absurd h2 hc

lemma metrics_ok_inv (pd : List PerfPoint) (m : Metrics) (hlen : 2 ≤ pd.length)
    (h : calculate_performance_metrics pd = .ok m) :
    firstValue pd ≠ 0 ∧ ∃ md, drawdownLoop (firstValue pd) 0 pd = .ok md ∧
      m = ⟨totalReturnOf pd, md, recoveryOf pd⟩ := by
  unfold calculate_performance_metrics at h
  rw [if_neg (by omega)] at h
  by_cases h0 : firstValue pd = 0
  · rw [if_pos h0] at h
    exact absurd h (by simp)
  · rw [if_neg h0] at h
    refine ⟨h0, ?_⟩
    cases hdd : drawdownLoop (firstValue pd) 0 pd with
    | error e =>
      rw [hdd] at h
      exact absurd h (by simp)
    | ok md =>
      rw [hdd] at h
      exact ⟨md, rfl, (Except.ok.inj h).symm⟩

/-- C7 -- Every value series with fewer than 2 points yields total_return 0,
max_drawdown 0 and absent recovery_days. -/
theorem C7_short_series_defaults (pd : List PerfPoint) (h : pd.length < 2) :
    calculate_performance_metrics pd = .ok ⟨0, 0, none⟩ := by
  unfold calculate_performance_metrics
  rw [if_pos h]

/-- C7 witness: a one-point series. -/
theorem C7_short_series_defaults_witness :
    calculate_performance_metrics [⟨0, 7⟩] = .ok ⟨0, 0, none⟩ :=
  C7_short_series_defaults [⟨0, 7⟩] (by decide)

/-- C1 -- The claim asserts the division by the first value is explicitly
guarded; in the source it is not: for a series of length 2 starting at value
0, `((final - initial) / initial) * 100` raises `ZeroDivisionError` (modelled
here as the error result), contradicting the spec's "reported as Undefined
rather than propagating an arithmetic fault". -/
theorem C1_zero_start_raises :
    calculate_performance_metrics [⟨0, 0⟩, ⟨1, 5⟩] = .error .zeroDivision := by
  norm_num [calculate_performance_metrics, firstValue, vAt, nthPoint]

/-- C4 counterexample: the series with values -10, -20 is strictly decreasing
yet its reported max_drawdown is 0 (the drawdown quantity is negative when
the running peak is negative, and the running maximum is seeded at 0), so
"max_drawdown = 0 iff the series is non-decreasing" is false as stated. -/
theorem C4_counterexample :
    calculate_performance_metrics [⟨0, -10⟩, ⟨1, -20⟩] = .ok ⟨100, 0, none⟩ ∧
    ¬ ValuesNonDecreasing [⟨0, -10⟩, ⟨1, -20⟩] := by
  constructor
  · norm_num [calculate_performance_metrics, firstValue, lastValue, totalReturnOf, vAt, dAt,
      nthPoint, drawdownLoop, recoveryOf, lowestIdx, lowestStep, List.range_succ]
  · norm_num [ValuesNonDecreasing]

lemma firstValue_cons (p : PerfPoint) (rest : List PerfPoint) :
    firstValue (p :: rest) = p.value := rfl

/-- C4 (amended) -- For every series of length at least 2 on which the metrics
computation succeeds, max_drawdown is nonnegative; and whenever the series'
first value is positive (the running peak, seeded there, then stays
positive), max_drawdown = 0 iff the series is non-decreasing (the iff can
fail when the first value is not positive, see the counterexample). -/
theorem C4_amended_drawdown (pd : List PerfPoint) (m : Metrics) (hlen : 2 ≤ pd.length)
    (h : calculate_performance_metrics pd = .ok m) :
    0 ≤ m.max_drawdown ∧
    (0 < firstValue pd → (m.max_drawdown = 0 ↔ ValuesNonDecreasing pd)) := by
  obtain ⟨h0, md, hdd, hm⟩ := metrics_ok_inv pd m hlen h
  subst hm
  refine ⟨drawdownLoop_le pd _ 0 md hdd, ?_⟩
  intro hfv
  cases pd with
  | nil => exact absurd hlen (by simp)
  | cons p0 rest =>
    obtain ⟨md2, hrun2, _, hiff⟩ :=
      drawdownLoop_pos (p0 :: rest) (firstValue (p0 :: rest)) 0 hfv (le_refl 0)
    rw [hdd] at hrun2
    have hmd2 : md = md2 := Except.ok.inj hrun2
    subst hmd2
    show md = 0 ↔ ValuesNonDecreasing (p0 :: rest)
    rw [hiff]
    have hvnd : ValuesNonDecreasing (p0 :: rest) =
        List.Chain (fun a b : PerfPoint => a.value ≤ b.value) p0 rest := rfl
    rw [hvnd, List.map_cons, firstValue_cons, List.chain_cons, List.chain_map]
    simp

/-- C4 amended witness: a series with a positive first value and a negative
dip, a case covered by the amended iff. -/
theorem C4_amended_drawdown_witness :
    0 ≤ (Metrics.mk 20 120 (some 1)).max_drawdown ∧
    (0 < firstValue ([⟨0, 5⟩, ⟨1, -1⟩, ⟨2, 6⟩] : List PerfPoint) →
      ((Metrics.mk 20 120 (some 1)).max_drawdown = 0 ↔
        ValuesNonDecreasing [⟨0, 5⟩, ⟨1, -1⟩, ⟨2, 6⟩])) :=
  C4_amended_drawdown [⟨0, 5⟩, ⟨1, -1⟩, ⟨2, 6⟩] ⟨20, 120, some 1⟩ (by norm_num)
    (by norm_num [calculate_performance_metrics, firstValue, lastValue, totalReturnOf, vAt,
      dAt, nthPoint, drawdownLoop, recoveryOf, lowestIdx, lowestStep, List.range_succ])

/-! ## Trough index and recovery scan lemmas -/

lemma lowestIdx_foldl_succ (pd : List PerfPoint) (n : Nat) :
    (List.range (n + 1)).foldl (lowestStep pd) 0 =
      lowestStep pd ((List.range n).foldl (lowestStep pd) 0) n := by
  rw [List.range_succ, List.foldl_append]
  rfl

lemma lowestIdx_aux_spec (pd : List PerfPoint) :
    ∀ n, 0 < n →
      (List.range n).foldl (lowestStep pd) 0 < n ∧
      (∀ j, j < n → vAt pd ((List.range n).foldl (lowestStep pd) 0) ≤ vAt pd j) ∧
      (∀ j, j < (List.range n).foldl (lowestStep pd) 0 →
        vAt pd ((List.range n).foldl (lowestStep pd) 0) < vAt pd j) := by
  intro n
  induction n with
  | zero => intro h; exact absurd h (by omega)
  | succ m ih =>
    intro _
    by_cases hm : 0 < m
    · obtain ⟨hlt, hmin, hfirst⟩ := ih hm
      rw [lowestIdx_foldl_succ]
      simp only [lowestStep]
      by_cases hc : vAt pd m < vAt pd ((List.range m).foldl (lowestStep pd) 0)
      · rw [if_pos hc]
        refine ⟨by omega, ?_, ?_⟩
        · intro j hj
          rcases Nat.lt_succ_iff_lt_or_eq.mp hj with hj' | hj'
          · exact le_trans (le_of_lt hc) (hmin j hj')
          · subst hj'
            exact le_refl _
        · intro j hj
          exact lt_of_lt_of_le hc (hmin j (by omega))
      · rw [if_neg hc]
        refine ⟨by omega, ?_, hfirst⟩
        intro j hj
        rcases Nat.lt_succ_iff_lt_or_eq.mp hj with hj' | hj'
        · exact hmin j hj'
        · subst hj'
          exact le_of_not_lt hc
    · have hm0 : m = 0 := by omega
      subst hm0
      have h1 : (List.range 1).foldl (lowestStep pd) 0 = 0 := by
        simp [List.range_succ, lowestStep]
      rw [h1]
      refine ⟨by omega, ?_, by omega⟩
      intro j hj
      have hj0 : j = 0 := by omega
      subst hj0
      exact le_refl _

lemma lowestIdx_spec (pd : List PerfPoint) (hne : 0 < pd.length) :
    lowestIdx pd < pd.length ∧
    (∀ j, j < pd.length → vAt pd (lowestIdx pd) ≤ vAt pd j) ∧
    (∀ j, j < lowestIdx pd → vAt pd (lowestIdx pd) < vAt pd j) :=
  lowestIdx_aux_spec pd pd.length hne

lemma find?_some_spec {α : Type} (q : α → Bool) (l : List α) (a d : α)
    (h : l.find? q = some a) :
    ∃ i, i < l.length ∧ l.getD i d = a ∧ q a = true ∧
      ∀ j, j < i → q (l.getD j d) = false := by
  induction l with
  | nil => simp [List.find?] at h
  | cons x xs ih =>
    by_cases hx : q x = true
    · rw [List.find?_cons_of_pos _ hx] at h
      have hax : x = a := Option.some.inj h
      subst hax
      exact ⟨0, by simp, by simp, hx, fun j hj => absurd hj (by omega)⟩
    · rw [List.find?_cons_of_neg _ (by simpa using hx)] at h
      obtain ⟨i, hi, hget, hqa, hprev⟩ := ih h
      refine ⟨i + 1, by simp; omega, by simpa [List.getD_cons_succ] using hget, hqa, ?_⟩
      intro j hj
      cases j with
      | zero => simpa [List.getD_cons_zero] using hx
      | succ j' => simpa [List.getD_cons_succ] using hprev j' (by omega)

lemma getD_drop {α : Type} (l : List α) (d : α) :
    ∀ n i, (l.drop n).getD i d = l.getD (n + i) d := by
  induction l with
  | nil =>
    intro n i
    simp
  | cons x xs ih =>
    intro n i
    cases n with
    | zero => simp
    | succ m =>
      rw [List.drop_succ_cons, ih m i,
        show m + 1 + i = (m + i) + 1 from by omega, List.getD_cons_succ]

lemma getD_mem {α : Type} (l : List α) (i : Nat) (d : α) (h : i < l.length) :
    l.getD i d ∈ l := by
  rw [List.getD_eq_getElem?_getD, List.getElem?_eq_getElem h, Option.getD_some]
  exact List.getElem_mem h

lemma recovery_characterization (pd : List PerfPoint) (hlen : 2 ≤ pd.length) :
    RecoverySpec pd (recoveryOf pd) := by
  have hne : 0 < pd.length := by omega
  obtain ⟨hk, hmin, hfirst⟩ := lowestIdx_spec pd hne
  refine ⟨lowestIdx pd, hk, hmin, hfirst, ?_⟩
  simp only [recoveryOf]
  by_cases hkl : lowestIdx pd < pd.length - 1
  · rw [if_pos hkl]
    refine Or.inr ⟨hkl, ?_⟩
    cases hf : (pd.drop (lowestIdx pd + 1)).find? (fun p => decide (firstValue pd ≤ p.value)) with
    | some p =>
      obtain ⟨i, hi, hget, hq, hprev⟩ := find?_some_spec _ _ p ⟨0, 0⟩ hf
      rw [List.length_drop] at hi
      rw [getD_drop] at hget
      have hnth : nthPoint pd (lowestIdx pd + 1 + i) = p := hget
      refine Or.inl ⟨lowestIdx pd + 1 + i, by omega, by omega, ?_, ?_, ?_⟩
      · have hq' : firstValue pd ≤ p.value := of_decide_eq_true hq
        have hv : vAt pd (lowestIdx pd + 1 + i) = p.value := by
          rw [vAt, hnth]
        rw [hv]
        exact hq'
      · intro i2 h1 h2
        have hj : i2 - (lowestIdx pd + 1) < i := by omega
        have hfalse := hprev _ hj
        rw [getD_drop, show lowestIdx pd + 1 + (i2 - (lowestIdx pd + 1)) = i2 from by omega]
          at hfalse
        have hnot : ¬ (firstValue pd ≤ (pd.getD i2 ⟨0, 0⟩).value) :=
          of_decide_eq_false hfalse
        exact lt_of_not_le hnot
      · have hd : dAt pd (lowestIdx pd + 1 + i) = p.date := by
          rw [dAt, hnth]
        rw [hd]
    | none =>
      refine Or.inr ⟨?_, rfl⟩
      intro j hj1 hj2
      have hmem : pd.getD j ⟨0, 0⟩ ∈ pd.drop (lowestIdx pd + 1) := by
        have : (pd.drop (lowestIdx pd + 1)).getD (j - (lowestIdx pd + 1)) ⟨0, 0⟩ =
            pd.getD j ⟨0, 0⟩ := by
          rw [getD_drop, show lowestIdx pd + 1 + (j - (lowestIdx pd + 1)) = j from by omega]
        rw [← this]
        apply getD_mem
        rw [List.length_drop]
        omega
      have := List.find?_eq_none.mp hf _ hmem
      have hnot : ¬ (firstValue pd ≤ (pd.getD j ⟨0, 0⟩).value) := by simpa using this
      exact lt_of_not_le hnot
  · rw [if_neg hkl]
    exact Or.inl ⟨by omega, rfl⟩

/-- C3 -- recovery_days is computed by locating the first-occurrence global
minimum; absent when the minimum is last; otherwise the first later entry
with value at or above the series' first value marks recovery, and
recovery_days is the day difference between that entry's date and the
trough's date; absent when no such entry exists. -/
theorem C3_recovery_days_characterization (pd : List PerfPoint) (m : Metrics)
    (hlen : 2 ≤ pd.length) (h : calculate_performance_metrics pd = .ok m) :
    RecoverySpec pd m.recovery_days := by
  obtain ⟨_, md, _, hm⟩ := metrics_ok_inv pd m hlen h
  subst hm
  exact recovery_characterization pd hlen

/-- C3 witness: the spec's worked example series. -/
theorem C3_recovery_days_characterization_witness :
    RecoverySpec [⟨0, 100⟩, ⟨1, 80⟩, ⟨2, 60⟩, ⟨3, 90⟩, ⟨4, 110⟩]
      (Metrics.mk 10 40 (some 2)).recovery_days :=
  C3_recovery_days_characterization [⟨0, 100⟩, ⟨1, 80⟩, ⟨2, 60⟩, ⟨3, 90⟩, ⟨4, 110⟩]
    ⟨10, 40, some 2⟩ (by norm_num)
    (by norm_num [calculate_performance_metrics, firstValue, lastValue, totalReturnOf, vAt,
      dAt, nthPoint, drawdownLoop, recoveryOf, lowestIdx, lowestStep, List.range_succ])

lemma nthPoint_eq_getElem (pd : List PerfPoint) (i : Nat) (h : i < pd.length) :
    nthPoint pd i = pd[i] := by
  rw [nthPoint, List.getD_eq_getElem?_getD, List.getElem?_eq_getElem h, Option.getD_some]

/-- C10 -- When the dates of a series of length at least 2 are strictly
increasing and the metrics computation reports a present recovery_days, that
value is at least 1: the recovery entry lies strictly after the trough, so
its date is strictly later. -/
theorem C10_recovery_days_at_least_one (pd : List PerfPoint) (m : Metrics) (r : ℤ)
    (hsort : List.Pairwise (fun a b : PerfPoint => a.date < b.date) pd)
    (hlen : 2 ≤ pd.length) (h : calculate_performance_metrics pd = .ok m)
    (hr : m.recovery_days = some r) : 1 ≤ r := by
  obtain ⟨_, md, _, hm⟩ := metrics_ok_inv pd m hlen h
  subst hm
  obtain ⟨k, hk, _, _, hcase⟩ := recovery_characterization pd hlen
  rcases hcase with ⟨_, hnone⟩ | ⟨_, hinner⟩
  · rw [hnone] at hr
    exact absurd hr (by simp)
  · rcases hinner with ⟨j, hkj, hj, _, _, hsome⟩ | ⟨_, hnone⟩
    · rw [hsome] at hr
      have hreq : r = dAt pd j - dAt pd k := (Option.some.inj hr).symm
      have hdates : dAt pd k < dAt pd j := by
        rw [dAt, dAt, nthPoint_eq_getElem pd k (by omega), nthPoint_eq_getElem pd j hj]
        exact List.pairwise_iff_getElem.mp hsort k j (by omega) hj hkj
      omega
    · rw [hnone] at hr
      exact absurd hr (by simp)

/-- C10 witness: the spec's worked example, whose recovery_days is 2. -/
theorem C10_recovery_days_at_least_one_witness : (1 : ℤ) ≤ 2 :=
  C10_recovery_days_at_least_one [⟨0, 100⟩, ⟨1, 80⟩, ⟨2, 60⟩, ⟨3, 90⟩, ⟨4, 110⟩]
    ⟨10, 40, some 2⟩ 2 (by decide) (by norm_num)
    (by norm_num [calculate_performance_metrics, firstValue, lastValue, totalReturnOf, vAt,
      dAt, nthPoint, drawdownLoop, recoveryOf, lowestIdx, lowestStep, List.range_succ])
    rfl

/-! ## Date-axis aligner lemmas -/

lemma mem_insertDate (d : ℤ) (l : List ℤ) (a : ℤ) :
    a ∈ insertDate d l ↔ a = d ∨ a ∈ l := by
  induction l with
  | nil => simp [insertDate]
  | cons x xs ih =>
    simp only [insertDate]
    split_ifs with h1 h2
    · simp [List.mem_cons]
    · subst h2
      simp [List.mem_cons]
    · simp [List.mem_cons, ih]
      tauto

lemma sorted_insertDate (d : ℤ) (l : List ℤ) (h : l.Sorted (· < ·)) :
    (insertDate d l).Sorted (· < ·) := by
  induction l with
  | nil => simp [insertDate]
  | cons x xs ih =>
    rw [List.sorted_cons] at h
    obtain ⟨hx, hxs⟩ := h
    simp only [insertDate]
    split_ifs with h1 h2
    · rw [List.sorted_cons]
      refine ⟨?_, by rw [List.sorted_cons]; exact ⟨hx, hxs⟩⟩
      intro b hb
      rcases List.mem_cons.mp hb with rfl | hb
      · exact h1
      · exact lt_trans h1 (hx b hb)
    · rw [List.sorted_cons]
      exact ⟨hx, hxs⟩
    · rw [List.sorted_cons]
      refine ⟨?_, ih hxs⟩
      intro b hb
      rcases (mem_insertDate d xs b).mp hb with rfl | hb
      · omega
      · exact hx b hb

lemma sortDedup_cons (x : ℤ) (xs : List ℤ) :
    sortDedup (x :: xs) = insertDate x (sortDedup xs) := rfl

lemma sorted_sortDedup (l : List ℤ) : (sortDedup l).Sorted (· < ·) := by
  induction l with
  | nil => simp [sortDedup]
  | cons x xs ih =>
    rw [sortDedup_cons]
    exact sorted_insertDate x _ ih

lemma mem_sortDedup (l : List ℤ) (a : ℤ) : a ∈ sortDedup l ↔ a ∈ l := by
  induction l with
  | nil => simp [sortDedup]
  | cons x xs ih =>
    rw [sortDedup_cons, mem_insertDate, ih, List.mem_cons]

lemma mem_collectDates (ed : EventData) (a : ℤ) :
    a ∈ collectDates ed ↔ ∃ kv ∈ ed, ∃ pt ∈ kv.2, pt.date = a := by
  induction ed with
  | nil => simp [collectDates]
  | cons kv rest ih =>
    simp only [collectDates, List.mem_append, List.mem_map, ih, List.mem_cons]
    constructor
    · rintro (⟨pt, hpt, hda⟩ | ⟨kv2, hkv2, pt, hpt, hda⟩)
      · exact ⟨kv, Or.inl rfl, pt, hpt, hda⟩
      · exact ⟨kv2, Or.inr hkv2, pt, hpt, hda⟩
    · rintro ⟨kv2, hkv2 | hkv2, pt, hpt, hda⟩
      · subst hkv2
        exact Or.inl ⟨pt, hpt, hda⟩
      · exact Or.inr ⟨kv2, hkv2, pt, hpt, hda⟩

/-- C5 -- The date axis is the set union of all dates present in any asset's
series, sorted strictly ascending (hence duplicate-free), and an empty union
makes the simulation fail with the insufficient-data error instead of
producing scenario results. -/
theorem C5_axis_union_and_empty_failure (ed : EventData) :
    (alignDates ed).Sorted (· < ·) ∧ (alignDates ed).Nodup ∧
    (∀ d : ℤ, d ∈ alignDates ed ↔ ∃ kv ∈ ed, ∃ pt ∈ kv.2, pt.date = d) ∧
    (∀ p : Portfolio, alignDates ed = [] →
      simulate_portfolio_event ed p = .error .insufficientData) := by
  have hs : (alignDates ed).Sorted (· < ·) := sorted_sortDedup (collectDates ed)
  refine ⟨hs, hs.nodup, ?_, ?_⟩
  · intro d
    rw [alignDates, mem_sortDedup, mem_collectDates]
  · intro p hempty
    simp only [simulate_portfolio_event, hempty]
    rfl

/-- C5 witness: the empty event-data mapping has an empty axis and the
simulation rejects it. -/
theorem C5_axis_union_and_empty_failure_witness :
    simulate_portfolio_event ([] : EventData) ⟨none⟩ = .error .insufficientData :=
  (C5_axis_union_and_empty_failure []).2.2.2 ⟨none⟩ rfl

/-! ## Simulation orchestrator lemmas -/

lemma simulate_ok_inv (ed : EventData) (p : Portfolio) (out : SimOutput)
    (h : simulate_portfolio_event ed p = .ok out) :
    alignDates ed ≠ [] ∧
    out.middle_date = nthDate (alignDates ed) ((alignDates ed).length / 2) ∧
    ∃ ncm wm am : Metrics,
      calculate_performance_metrics
        (calculate_scenario_performance ed (alignDates ed) "no_change" none (some p)) =
          .ok ncm ∧
      calculate_performance_metrics
        (calculate_scenario_performance ed (alignDates ed) "withdraw"
          (some out.middle_date) (some p)) = .ok wm ∧
      calculate_performance_metrics
        (calculate_scenario_performance ed (alignDates ed) "add"
          (some out.middle_date) (some p)) = .ok am ∧
      out.simulation_results =
        [⟨"No Changes",
          calculate_scenario_performance ed (alignDates ed) "no_change" none (some p),
          ncm.total_return, ncm.max_drawdown, ncm.recovery_days⟩,
         ⟨"20% Withdrawal",
          calculate_scenario_performance ed (alignDates ed) "withdraw"
            (some out.middle_date) (some p),
          wm.total_return, wm.max_drawdown, wm.recovery_days⟩,
         ⟨"20% Addition",
          calculate_scenario_performance ed (alignDates ed) "add"
            (some out.middle_date) (some p),
          am.total_return, am.max_drawdown, am.recovery_days⟩] ∧
      out.best_scenario = best_scenario out.simulation_results := by
  simp only [simulate_portfolio_event] at h
  by_cases hlen : (alignDates ed).length = 0
  · rw [if_pos hlen] at h
    exact absurd h (by simp)
  · rw [if_neg hlen] at h
    have hne : alignDates ed ≠ [] := by
      intro hc
      rw [hc] at hlen
      exact hlen rfl
    cases h1 : calculate_performance_metrics
        (calculate_scenario_performance ed (alignDates ed) "no_change" none (some p)) with
    | error e =>
      rw [h1] at h
      exact absurd h (by simp)
    | ok ncm =>
      rw [h1] at h
      cases h2 : calculate_performance_metrics
          (calculate_scenario_performance ed (alignDates ed) "withdraw"
            (some (nthDate (alignDates ed) ((alignDates ed).length / 2))) (some p)) with
      | error e =>
        rw [h2] at h
        exact absurd h (by simp)
      | ok wm =>
        rw [h2] at h
        cases h3 : calculate_performance_metrics
            (calculate_scenario_performance ed (alignDates ed) "add"
              (some (nthDate (alignDates ed) ((alignDates ed).length / 2))) (some p)) with
        | error e =>
          rw [h3] at h
          exact absurd h (by simp)
        | ok am =>
          rw [h3] at h
          have hout := (Except.ok.inj h).symm
          subst hout
          exact ⟨hne, rfl, ncm, wm, am, rfl, h2, h3, rfl, rfl⟩

lemma best_scenario_three (r1 r2 r3 : ScenarioResult) :
    ∃ r ∈ [r1, r2, r3], r.scenario = best_scenario [r1, r2, r3] ∧
      ∀ s ∈ [r1, r2, r3], s.total_return ≤ r.total_return := by
  simp only [best_scenario, List.foldl]
  by_cases h12 : r1.total_return < r2.total_return
  · rw [if_pos h12]
    by_cases h23 : r2.total_return < r3.total_return
    · rw [if_pos h23]
      refine ⟨r3, by simp, rfl, ?_⟩
      intro s hs
      rcases List.mem_cons.mp hs with rfl | hs
      · linarith
      rcases List.mem_cons.mp hs with rfl | hs
      · linarith
      rcases List.mem_cons.mp hs with rfl | hs
      · linarith
      · exact absurd hs (List.not_mem_nil s)
    · rw [if_neg h23]
      refine ⟨r2, by simp, rfl, ?_⟩
      intro s hs
      rcases List.mem_cons.mp hs with rfl | hs
      · linarith
      rcases List.mem_cons.mp hs with rfl | hs
      · linarith
      rcases List.mem_cons.mp hs with rfl | hs
      · linarith
      · exact absurd hs (List.not_mem_nil s)
  · rw [if_neg h12]
    by_cases h13 : r1.total_return < r3.total_return
    · rw [if_pos h13]
      refine ⟨r3, by simp, rfl, ?_⟩
      intro s hs
      rcases List.mem_cons.mp hs with rfl | hs
      · linarith
      rcases List.mem_cons.mp hs with rfl | hs
      · linarith
      rcases List.mem_cons.mp hs with rfl | hs
      · linarith
      · exact absurd hs (List.not_mem_nil s)
    · rw [if_neg h13]
      refine ⟨r1, by simp, rfl, ?_⟩
      intro s hs
      rcases List.mem_cons.mp hs with rfl | hs
      · linarith
      rcases List.mem_cons.mp hs with rfl | hs
      · linarith
      rcases List.mem_cons.mp hs with rfl | hs
      · linarith
      · exact absurd hs (List.not_mem_nil s)

/-- C6 -- For every successful simulation run, the pivot date is the axis
element at index floor(len/2), computed once from the shared axis and passed
to both the withdraw and the add evaluation, and the behavioural adjustment
(0.8 resp. 1.2) applies exactly at the pivot date and at every later axis
date, not before it. -/
theorem C6_shared_middle_pivot (ed : EventData) (p : Portfolio) (out : SimOutput)
    (h : simulate_portfolio_event ed p = .ok out) :
    alignDates ed ≠ [] ∧
    (alignDates ed).length / 2 < (alignDates ed).length ∧
    out.middle_date = nthDate (alignDates ed) ((alignDates ed).length / 2) ∧
    out.simulation_results.map (fun r => r.performance) =
      [calculate_scenario_performance ed (alignDates ed) "no_change" none (some p),
       calculate_scenario_performance ed (alignDates ed) "withdraw"
         (some out.middle_date) (some p),
       calculate_scenario_performance ed (alignDates ed) "add"
         (some out.middle_date) (some p)] ∧
    calculate_scenario_performance ed (alignDates ed) "withdraw"
        (some out.middle_date) (some p) =
      (calculate_scenario_performance ed (alignDates ed) "no_change" none (some p)).map
        (fun pt => if out.middle_date ≤ pt.date then ⟨pt.date, 0.8 * pt.value⟩ else pt) ∧
    calculate_scenario_performance ed (alignDates ed) "add"
        (some out.middle_date) (some p) =
      (calculate_scenario_performance ed (alignDates ed) "no_change" none (some p)).map
        (fun pt => if out.middle_date ≤ pt.date then ⟨pt.date, 1.2 * pt.value⟩ else pt) := by
  obtain ⟨hne, hmid, ncm, wm, am, h1, h2, h3, hres, hbest⟩ := simulate_ok_inv ed p out h
  refine ⟨hne, ?_, hmid, ?_, withdraw_series_map ed (alignDates ed) (some p) out.middle_date,
    add_series_map ed (alignDates ed) (some p) out.middle_date⟩
  · exact Nat.div_lt_self (List.length_pos.mpr hne) (by norm_num)
  · rw [hres]
    rfl

/-- C8 (amended) -- Every simulation run that completes without a metrics
fault evaluates and returns all three scenarios, in the fixed order
No Changes, 20% Withdrawal, 20% Addition, and the surfaced best scenario is
one of the three whose total_return is maximal among them.  As originally
stated ("all three always run, even if degenerate") the claim is false: a
degenerate Hold series starting at value 0 makes the No-Changes metrics
computation raise, so the Withdraw and Add scenarios are never evaluated
(see the counterexample). -/
theorem C8_three_scenarios_best_maximal (ed : EventData) (p : Portfolio) (out : SimOutput)
    (h : simulate_portfolio_event ed p = .ok out) :
    out.simulation_results.map (fun r => r.scenario) =
      ["No Changes", "20% Withdrawal", "20% Addition"] ∧
    ∃ r ∈ out.simulation_results, r.scenario = out.best_scenario ∧
      ∀ s ∈ out.simulation_results, s.total_return ≤ r.total_return := by
  obtain ⟨hne, hmid, ncm, wm, am, h1, h2, h3, hres, hbest⟩ := simulate_ok_inv ed p out h
  constructor
  · rw [hres]
    rfl
  · rw [hbest, hres]
    exact best_scenario_three _ _ _

/-- C8 counterexample: an event window with a non-empty axis whose Hold
series starts at value 0.  The No-Changes metrics computation (line 419 of
the source) raises ZeroDivisionError, the Withdraw and Add evaluations
(lines 428 and 438) never execute, and no three-way results are returned —
refuting "all three scenarios always run and are returned even if
degenerate". -/
theorem C8_degenerate_run_counterexample :
    alignDates [("A", [⟨0, 0, 100⟩, ⟨1, 5, 100⟩])] ≠ [] ∧
    simulate_portfolio_event [("A", [⟨0, 0, 100⟩, ⟨1, 5, 100⟩])] ⟨none⟩ =
      .error (.metricsFault .zeroDivision) := by
  have hax : alignDates [("A", [⟨0, 0, 100⟩, ⟨1, 5, 100⟩])] = [0, 1] := by
    norm_num [alignDates, sortDedup, collectDates, insertDate]
  have hnc : calculate_scenario_performance [("A", [⟨0, 0, 100⟩, ⟨1, 5, 100⟩])] [0, 1]
      "no_change" none (some ⟨none⟩) = [⟨0, 0⟩, ⟨1, 5⟩] := by
    norm_num [calculate_scenario_performance, point_value, raw_value, apply_investment,
      adjustment_factor]
  have hm : calculate_performance_metrics [⟨0, 0⟩, ⟨1, 5⟩] = .error .zeroDivision := by
    norm_num [calculate_performance_metrics, firstValue, vAt, nthPoint]
  constructor
  · rw [hax]
    exact List.cons_ne_nil 0 [1]
  · simp only [simulate_portfolio_event, hax, hnc, hm]
    norm_num

/-- Concrete one-asset event window used by the simulation witnesses. -/
def exampleEventData : EventData :=
  [("A", [⟨0, 10, 100⟩, ⟨1, 12, 100⟩])]

/-- The simulation output on `exampleEventData` (computed by hand:
axis [0, 1], pivot 1, hold [10, 12], withdraw [10, 9.6], add [10, 14.4]). -/
def exampleOut : SimOutput :=
  ⟨1, [⟨"No Changes", [⟨0, 10⟩, ⟨1, 12⟩], 20, 0, some 1⟩,
       ⟨"20% Withdrawal", [⟨0, 10⟩, ⟨1, 48/5⟩], -4, 4, none⟩,
       ⟨"20% Addition", [⟨0, 10⟩, ⟨1, 72/5⟩], 44, 0, some 1⟩], "20% Addition"⟩

lemma simulate_example_run :
    simulate_portfolio_event exampleEventData ⟨none⟩ = .ok exampleOut := by
  have hax : alignDates exampleEventData = [0, 1] := by
    norm_num [exampleEventData, alignDates, sortDedup, collectDates, insertDate]
  have hmid : nthDate [0, 1] (([0, 1] : List ℤ).length / 2) = 1 := by
    norm_num [nthDate]
  have hnc : calculate_scenario_performance exampleEventData [0, 1]
      "no_change" none (some ⟨none⟩) = [⟨0, 10⟩, ⟨1, 12⟩] := by
    norm_num [exampleEventData, calculate_scenario_performance, point_value, raw_value,
      apply_investment, adjustment_factor]
  have hw : calculate_scenario_performance exampleEventData [0, 1]
      "withdraw" (some 1) (some ⟨none⟩) = [⟨0, 10⟩, ⟨1, 48/5⟩] := by
    norm_num [exampleEventData, calculate_scenario_performance, point_value, raw_value,
      apply_investment, adjustment_factor]
  have ha : calculate_scenario_performance exampleEventData [0, 1]
      "add" (some 1) (some ⟨none⟩) = [⟨0, 10⟩, ⟨1, 72/5⟩] := by
    norm_num [exampleEventData, calculate_scenario_performance, point_value, raw_value,
      apply_investment, adjustment_factor]
    decide
  have hm1 : calculate_performance_metrics [⟨0, 10⟩, ⟨1, 12⟩] = .ok ⟨20, 0, some 1⟩ := by
    norm_num [calculate_performance_metrics, firstValue, lastValue, totalReturnOf, vAt,
      dAt, nthPoint, drawdownLoop, recoveryOf, lowestIdx, lowestStep, List.range_succ]
  have hm2 : calculate_performance_metrics [⟨0, 10⟩, ⟨1, 48/5⟩] = .ok ⟨-4, 4, none⟩ := by
    norm_num [calculate_performance_metrics, firstValue, lastValue, totalReturnOf, vAt,
      dAt, nthPoint, drawdownLoop, recoveryOf, lowestIdx, lowestStep, List.range_succ]
  have hm3 : calculate_performance_metrics [⟨0, 10⟩, ⟨1, 72/5⟩] = .ok ⟨44, 0, some 1⟩ := by
    norm_num [calculate_performance_metrics, firstValue, lastValue, totalReturnOf, vAt,
      dAt, nthPoint, drawdownLoop, recoveryOf, lowestIdx, lowestStep, List.range_succ]
  have hb : best_scenario
      [⟨"No Changes", [⟨0, 10⟩, ⟨1, 12⟩], 20, 0, some 1⟩,
       ⟨"20% Withdrawal", [⟨0, 10⟩, ⟨1, 48/5⟩], -4, 4, none⟩,
       ⟨"20% Addition", [⟨0, 10⟩, ⟨1, 72/5⟩], 44, 0, some 1⟩] = "20% Addition" := by
    norm_num [best_scenario]
  rw [show exampleOut = ⟨1, [⟨"No Changes", [⟨0, 10⟩, ⟨1, 12⟩], 20, 0, some 1⟩,
       ⟨"20% Withdrawal", [⟨0, 10⟩, ⟨1, 48/5⟩], -4, 4, none⟩,
       ⟨"20% Addition", [⟨0, 10⟩, ⟨1, 72/5⟩], 44, 0, some 1⟩], "20% Addition"⟩ from rfl]
  simp only [simulate_portfolio_event, hax, hmid, hnc, hw, ha, hm1, hm2, hm3]
  rw [if_neg (by norm_num)]
  simp only [hb]

/-- C6 witness: the example run, where the pivot is axis index 1 of 2 dates
and only the second value is adjusted. -/
theorem C6_shared_middle_pivot_witness :
    alignDates exampleEventData ≠ [] ∧
    (alignDates exampleEventData).length / 2 < (alignDates exampleEventData).length ∧
    exampleOut.middle_date =
      nthDate (alignDates exampleEventData) ((alignDates exampleEventData).length / 2) ∧
    exampleOut.simulation_results.map (fun r => r.performance) =
      [calculate_scenario_performance exampleEventData (alignDates exampleEventData)
         "no_change" none (some ⟨none⟩),
       calculate_scenario_performance exampleEventData (alignDates exampleEventData)
         "withdraw" (some exampleOut.middle_date) (some ⟨none⟩),
       calculate_scenario_performance exampleEventData (alignDates exampleEventData)
         "add" (some exampleOut.middle_date) (some ⟨none⟩)] ∧
    calculate_scenario_performance exampleEventData (alignDates exampleEventData)
        "withdraw" (some exampleOut.middle_date) (some ⟨none⟩) =
      (calculate_scenario_performance exampleEventData (alignDates exampleEventData)
          "no_change" none (some ⟨none⟩)).map
        (fun pt => if exampleOut.middle_date ≤ pt.date then ⟨pt.date, 0.8 * pt.value⟩ else pt) ∧
    calculate_scenario_performance exampleEventData (alignDates exampleEventData)
        "add" (some exampleOut.middle_date) (some ⟨none⟩) =
      (calculate_scenario_performance exampleEventData (alignDates exampleEventData)
          "no_change" none (some ⟨none⟩)).map
        (fun pt => if exampleOut.middle_date ≤ pt.date then ⟨pt.date, 1.2 * pt.value⟩ else pt) :=
  C6_shared_middle_pivot exampleEventData ⟨none⟩ exampleOut simulate_example_run

/-- C8 witness: the example run, whose best scenario is the 20% Addition. -/
theorem C8_three_scenarios_best_maximal_witness :
    exampleOut.simulation_results.map (fun r => r.scenario) =
      ["No Changes", "20% Withdrawal", "20% Addition"] ∧
    ∃ r ∈ exampleOut.simulation_results, r.scenario = exampleOut.best_scenario ∧
      ∀ s ∈ exampleOut.simulation_results, s.total_return ≤ r.total_return :=
  C8_three_scenarios_best_maximal exampleEventData ⟨none⟩ exampleOut simulate_example_run
